import Mathlib

/-!
Verification of the DOAJ British-modernism analysis pipeline
(source: `analyze_modernism.py` and `create_analysis_format.py`).

Embedding conventions:
* a Python string is a `List Char` (`Str`); `str.lower()` is `lowerStr`
  (Python lowercasing, restricted to the ASCII range that the indicator
  vocabulary uses); the substring test `pat in s` is `hasSub s pat`;
  `' '.join(xs)` is `joinSpace xs`;
* an absent JSON field is `Option.none`; Python `d.get(k, default)` is
  `Option.getD`; a direct subscription `d[k]` on a possibly-absent key is a
  `match` whose `none` arm is `Except.error` (a raised `KeyError`);
* `int(s)` on an all-digit string is `digitsToNat`; `str.isdigit()` is
  `pyIsDigit`; Python `min()`/`max()` raising `ValueError` on an empty
  sequence is modelled by `yearRange` returning `none`.
-/

abbrev Str := List Char

/-- Python substring containment: `pat in hay`. -/
def hasSub : Str → Str → Bool
  | [], pat => pat.isEmpty
  | c :: t, pat => pat.isPrefixOf (c :: t) || hasSub t pat

/-- Python `str.lower()`. -/
def lowerStr (s : Str) : Str := s.map Char.toLower

/-- Python `' '.join(xs)`. -/
def joinSpace : List Str → Str
  | [] => []
  | [s] => s
  | s :: rest => s ++ ' ' :: joinSpace rest

/-- `bibjson.journal` object: fields read by the pipeline. -/
structure Journal where
  title : Option Str
  publisher : Option Str
  country : Option Str

/-- One entry of `bibjson.identifier`. -/
structure Identifier where
  type : Option Str
  id : Option Str

/-- One entry of `bibjson.link`. -/
structure Link where
  type : Option Str
  url : Option Str

/-- One entry of `bibjson.author`. -/
structure Author where
  name : Option Str

/-- One entry of `bibjson.subject`. -/
structure Subject where
  term : Option Str

/-- The `bibjson` object: fields read by the pipeline. -/
structure Bibjson where
  title : Option Str
  abstract : Option Str
  keywords : Option (List Str)
  year : Option Str
  journal : Option Journal
  author : Option (List Author)
  identifier : Option (List Identifier)
  link : Option (List Link)
  subject : Option (List Subject)

/-- A DOAJ record as the pipeline reads it. -/
structure Paper where
  id : Option Str
  bibjson : Option Bibjson

deriving instance DecidableEq, Repr for Journal
deriving instance DecidableEq, Repr for Identifier
deriving instance DecidableEq, Repr for Link
deriving instance DecidableEq, Repr for Author
deriving instance DecidableEq, Repr for Subject
deriving instance DecidableEq, Repr for Bibjson
deriving instance DecidableEq, Repr for Paper

/-- `{}`: the default for `paper.get('bibjson', {})`. -/
def emptyBibjson : Bibjson := ⟨none, none, none, none, none, none, none, none, none⟩

/-- `{}`: the default for `bibjson.get('journal', {})`. -/
def emptyJournal : Journal := ⟨none, none, none⟩

/-- `paper.get('bibjson', {})`. -/
def bjOf (p : Paper) : Bibjson := p.bibjson.getD emptyBibjson

/-- `early_indicators` of `categorize_by_era`. -/
def early_indicators : List Str :=
  ["wilde", "aestheticism", "decadence", "fin de siècle", "symbolism",
   "pater", "beardsley", "symons"].map String.toList

/-- `high_indicators` of `categorize_by_era`. -/
def high_indicators : List Str :=
  ["pound", "eliot", "joyce", "woolf", "yeats", "imagism", "vorticism",
   "stream of consciousness", "waste land", "ulysses"].map String.toList

/-- `late_indicators` of `categorize_by_era`. -/
def late_indicators : List Str :=
  ["auden", "spender", "isherwood", "macneice", "thirties", "1930s",
   "spanish civil war", "world war ii"].map String.toList

/-- `f"{title} {abstract} {keywords}".lower()` built in `categorize_by_era`
from the lowercased title, abstract and space-joined keywords. -/
def eraContent (p : Paper) : Str :=
  let bj := bjOf p
  let title := lowerStr (bj.title.getD [])
  let abstract := lowerStr (bj.abstract.getD [])
  let keywords := lowerStr (joinSpace (bj.keywords.getD []))
  lowerStr (title ++ ' ' :: abstract ++ ' ' :: keywords)

/-- `sum(1 for indicator in inds if indicator in content)`. -/
def countHits (inds : List Str) (content : Str) : Nat :=
  (inds.filter (fun i => hasSub content i)).length

def earlyCount (p : Paper) : Nat := countHits early_indicators (eraContent p)

def highCount (p : Paper) : Nat := countHits high_indicators (eraContent p)

def lateCount (p : Paper) : Nat := countHits late_indicators (eraContent p)

def earlyLabel : Str := "Early Modernism (1890s-1910s)".toList

def highLabel : Str := "High Modernism (1910s-1920s)".toList

def lateLabel : Str := "Late Modernism (1930s-1950s)".toList

def generalLabel : Str := "General Modernism".toList

/-- The `if`/`elif` cascade of `categorize_by_era` on the three counts. -/
def eraFromCounts (e h l : Nat) : Str :=
  if e > h ∧ e > l then earlyLabel
  else if h > e ∧ h > l then highLabel
  else if l > e ∧ l > h then lateLabel
  else generalLabel

/-- `categorize_by_era(paper)`. -/
def categorize_by_era (p : Paper) : Str :=
  eraFromCounts (earlyCount p) (highCount p) (lateCount p)

/-- The academic-indicator word list of `categorize_by_medium`. -/
def academic_words : List Str :=
  ["journal", "review", "studies", "quarterly", "university", "research"].map String.toList

/-- The literary-magazine indicator word list of `categorize_by_medium`. -/
def literary_words : List Str :=
  ["magazine", "letters", "writing", "poetry", "literature", "arts"].map String.toList

/-- `f"{journal_title} {publisher}"` built in `categorize_by_medium` from the
lowercased journal title and publisher. -/
def mediumContent (p : Paper) : Str :=
  let ji := (bjOf p).journal.getD emptyJournal
  lowerStr (ji.title.getD []) ++ ' ' :: lowerStr (ji.publisher.getD [])

def academicLabel : Str := "Academic Journal".toList

def literaryLabel : Str := "Literary Magazine".toList

def otherLabel : Str := "Other Publication".toList

/-- `categorize_by_medium(paper)`. -/
def categorize_by_medium (p : Paper) : Str :=
  if academic_words.any (fun w => hasSub (mediumContent p) w) then academicLabel
  else if literary_words.any (fun w => hasSub (mediumContent p) w) then literaryLabel
  else otherLabel

/-- The metadata dict built by `extract_metadata_for_analysis`. -/
structure Metadata where
  id : Option Str
  title : Str
  authors : List Str
  year : Str
  journal : Str
  publisher : Str
  country : Str
  keywords : List Str
  abstract : Str
  doi : Option Str
  full_text_links : List Str
  subjects : List Str

deriving instance DecidableEq, Repr for Metadata

/-- `next((id['id'] for id in identifiers if id.get('type') == 'doi'), None)`:
the first identifier whose `type` is `'doi'` yields its `id`; subscription of
an absent `id` key raises `KeyError`. -/
def doiOf : List Identifier → Except String (Option Str)
  | [] => Except.ok none
  | i :: rest =>
    if i.type = some "doi".toList then
      match i.id with
      | some v => Except.ok (some v)
      | none => Except.error "KeyError: id"
    else doiOf rest

/-- `[link['url'] for link in links if link.get('type') == 'fulltext']`:
subscription of an absent `url` key raises `KeyError`. -/
def linksOf : List Link → Except String (List Str)
  | [] => Except.ok []
  | l :: rest =>
    if l.type = some "fulltext".toList then
      match l.url with
      | some u =>
        match linksOf rest with
        | Except.error e => Except.error e
        | Except.ok us => Except.ok (u :: us)
      | none => Except.error "KeyError: url"
    else linksOf rest

/-- `extract_metadata_for_analysis(paper)`; the dict entries are evaluated in
source order, so the `doi` subscription fires before the `full_text_links`
one. -/
def extract_metadata_for_analysis (p : Paper) : Except String Metadata :=
  let bj := bjOf p
  let ji := bj.journal.getD emptyJournal
  let authors := (bj.author.getD []).map (fun a => a.name.getD [])
  let subjects := (bj.subject.getD []).map (fun s => s.term.getD [])
  match doiOf (bj.identifier.getD []) with
  | Except.error e => Except.error e
  | Except.ok doi =>
    match linksOf (bj.link.getD []) with
    | Except.error e => Except.error e
    | Except.ok links =>
      Except.ok (Metadata.mk p.id (bj.title.getD []) authors (bj.year.getD [])
        (ji.title.getD []) (ji.publisher.getD []) (ji.country.getD [])
        (bj.keywords.getD []) (bj.abstract.getD []) doi links subjects)

/-- The bucket a `defaultdict(list)` of `analyze_doaj_modernism` holds under
`label` after the loop `categories[f(paper)].append(...)` over `ps`: the
records classified `label`, in input order. -/
def bucketOf (f : Paper → Str) (ps : List Paper) (label : Str) : List Paper :=
  match ps with
  | [] => []
  | p :: rest =>
    if f p = label then p :: bucketOf f rest label else bucketOf f rest label

/-- The four era labels `categorize_by_era` can return. -/
def eraLabels : List Str := [earlyLabel, highLabel, lateLabel, generalLabel]

/-- The three medium labels `categorize_by_medium` can return. -/
def mediumLabels : List Str := [academicLabel, literaryLabel, otherLabel]

/-- Python `str.isdigit()` on the ASCII years the data carries. -/
def pyIsDigit (s : Str) : Bool := !s.isEmpty && s.all Char.isDigit

/-- Python `int(s)` on an all-digit string. -/
def digitsToNat (s : Str) : Nat := s.foldl (fun acc c => 10 * acc + (c.toNat - 48)) 0

/-- `[int(p['year']) for p in ms if p['year'].isdigit()]`, the sequence the
`year_range` entry of `create_structured_output` aggregates. -/
def numericYears (ms : List Metadata) : List Nat :=
  (ms.filter (fun m => pyIsDigit m.year)).map (fun m => digitsToNat m.year)

/-- The `year_range` entry of `create_structured_output`: `min`/`max` of the
numeric years; `none` models the `ValueError` Python's `min` raises on an
empty sequence. -/
def yearRange (ms : List Metadata) : Option (Nat × Nat) :=
  match numericYears ms with
  | [] => none
  | y :: ys => some (ys.foldl Nat.min y, ys.foldl Nat.max y)

/-- A record all of whose fields are present but empty. -/
def emptyRecord : Paper :=
  ⟨some [], some ⟨some [], some [], some [], some [],
    some ⟨some [], some [], some []⟩, some [], some [], some [], some []⟩⟩

/-- A record whose title ends with `waste` and whose abstract begins with
`land`, with an empty keyword list. -/
def wasteLandSplit : Paper :=
  ⟨none, some ⟨some "waste".toList, some "land".toList, some [], none,
    none, none, none, none, none⟩⟩

/-- A record whose journal title carries both an academic and a
literary-magazine indicator word. -/
def bothWordsPaper : Paper :=
  ⟨none, some ⟨none, none, none, none,
    some ⟨some "Poetry Magazine Review".toList, none, none⟩,
    none, none, none, none⟩⟩

/-- A record with id `a`, year `1922` and no author list. -/
def detPaperA : Paper :=
  ⟨some "a".toList, some ⟨some "eliot and pound".toList, some [], some [],
    some "1922".toList, some ⟨some "some journal".toList, some [], some []⟩,
    none, none, none, none⟩⟩

/-- A record agreeing with `detPaperA` on every text field the classifiers
read, but with a different id, a different year and extra empty fields. -/
def detPaperB : Paper :=
  ⟨some "b".toList, some ⟨some "eliot and pound".toList, some [], some [],
    some "n.d.".toList, some ⟨some "some journal".toList, some [], some []⟩,
    some [], some [], some [], some []⟩⟩

/-- A record whose sole identifier entry has type `doi` but no `id` key. -/
def doiNoId : Paper :=
  ⟨none, some ⟨none, none, none, none, none, none,
    some [Identifier.mk (some "doi".toList) none], none, none⟩⟩

/-- A metadata row whose year string is the non-numeric `n.d.`. -/
def ndRecord : Metadata :=
  Metadata.mk none [] [] "n.d.".toList [] [] [] [] [] none [] []

/-- A metadata row with the numeric year string `1923`. -/
def y1923 : Metadata :=
  Metadata.mk none [] [] "1923".toList [] [] [] [] [] none [] []

/-! ## Helper lemmas -/

theorem eraFromCounts_elim (e h l : Nat) :
    (eraFromCounts e h l = earlyLabel ↔ e > h ∧ e > l)
    ∧ (eraFromCounts e h l = highLabel ↔ h > e ∧ h > l)
    ∧ (eraFromCounts e h l = lateLabel ↔ l > e ∧ l > h)
    ∧ (eraFromCounts e h l = generalLabel ↔
        ¬(e > h ∧ e > l) ∧ ¬(h > e ∧ h > l) ∧ ¬(l > e ∧ l > h)) := by
  have d12 : earlyLabel ≠ highLabel := by decide
  have d13 : earlyLabel ≠ lateLabel := by decide
  have d14 : earlyLabel ≠ generalLabel := by decide
  have d23 : highLabel ≠ lateLabel := by decide
  have d24 : highLabel ≠ generalLabel := by decide
  have d34 : lateLabel ≠ generalLabel := by decide
  unfold eraFromCounts
  split_ifs with h1 h2 h3
  · exact ⟨iff_of_true rfl h1, iff_of_false d12 (by omega),
      iff_of_false d13 (by omega), iff_of_false d14 (fun hc => hc.1 h1)⟩
  · exact ⟨iff_of_false (fun hx => d12 hx.symm) (by omega), iff_of_true rfl h2,
      iff_of_false d23 (by omega), iff_of_false d24 (fun hc => hc.2.1 h2)⟩
  · exact ⟨iff_of_false (fun hx => d13 hx.symm) h1,
      iff_of_false (fun hx => d23 hx.symm) h2, iff_of_true rfl h3,
      iff_of_false d34 (fun hc => hc.2.2 h3)⟩
  · exact ⟨iff_of_false (fun hx => d14 hx.symm) h1,
      iff_of_false (fun hx => d24 hx.symm) h2,
      iff_of_false (fun hx => d34 hx.symm) h3, iff_of_true rfl ⟨h1, h2, h3⟩⟩

theorem era_label_mem (p : Paper) : categorize_by_era p ∈ eraLabels := by
  unfold categorize_by_era eraFromCounts eraLabels
  split_ifs <;> simp

theorem medium_label_mem (p : Paper) : categorize_by_medium p ∈ mediumLabels := by
  unfold categorize_by_medium mediumLabels
  split_ifs <;> simp

/-! ## Claim theorems -/

/-- C1: the era classifier uses strict majority — each era label is returned
exactly when that era's indicator count strictly exceeds both other counts,
and on any tie for the maximum (all counts zero included) the result is the
catch-all `General Modernism`; in particular counts `(2, 2, 0)` yield the
catch-all. -/
theorem era_strict_majority (p : Paper) :
    (categorize_by_era p = earlyLabel ↔
      earlyCount p > highCount p ∧ earlyCount p > lateCount p)
    ∧ (categorize_by_era p = highLabel ↔
        highCount p > earlyCount p ∧ highCount p > lateCount p)
    ∧ (categorize_by_era p = lateLabel ↔
        lateCount p > earlyCount p ∧ lateCount p > highCount p)
    ∧ (categorize_by_era p = generalLabel ↔
        ¬(earlyCount p > highCount p ∧ earlyCount p > lateCount p)
        ∧ ¬(highCount p > earlyCount p ∧ highCount p > lateCount p)
        ∧ ¬(lateCount p > earlyCount p ∧ lateCount p > highCount p))
    ∧ eraFromCounts 2 2 0 = generalLabel :=
  ⟨(eraFromCounts_elim _ _ _).1, (eraFromCounts_elim _ _ _).2.1,
   (eraFromCounts_elim _ _ _).2.2.1, (eraFromCounts_elim _ _ _).2.2.2, by decide⟩

/-- C2: every record receives exactly one era label, drawn from the fixed
four-element enumeration, and exactly one medium label, drawn from the fixed
three-element enumeration (both classifiers are total functions into their
pairwise-distinct label lists). -/
theorem labels_from_enumeration (p : Paper) :
    categorize_by_era p ∈ eraLabels ∧ categorize_by_medium p ∈ mediumLabels
    ∧ eraLabels.length = 4 ∧ mediumLabels.length = 3
    ∧ eraLabels.Nodup ∧ mediumLabels.Nodup :=
  ⟨era_label_mem p, medium_label_mem p, by decide, by decide, by decide, by decide⟩

/-- C8: a record all of whose fields are present but empty (empty strings and
empty sequences) classifies as `General Modernism` for era and
`Other Publication` for medium. -/
theorem empty_record_catch_all :
    categorize_by_era emptyRecord = generalLabel
    ∧ categorize_by_medium emptyRecord = otherLabel := by
  decide

/-- C9: the era search text joins title, abstract and keywords with single
spaces, so the two-word indicator `waste land` matches across the
title/abstract boundary of a record whose title ends in `waste` and whose
abstract begins with `land`, even though neither field alone contains it;
the match counts toward the high-modernism count and here decides the
label. -/
theorem cross_field_indicator_match :
    hasSub (eraContent wasteLandSplit) "waste land".toList = true
    ∧ hasSub (lowerStr ((bjOf wasteLandSplit).title.getD [])) "waste land".toList = false
    ∧ hasSub (lowerStr ((bjOf wasteLandSplit).abstract.getD [])) "waste land".toList = false
    ∧ highCount wasteLandSplit = 1
    ∧ categorize_by_era wasteLandSplit = highLabel := by
  decide

/-- C3: the medium classifier checks the academic word list first — any
academic indicator in the journal-title-plus-publisher text yields
`Academic Journal` regardless of literary-magazine indicators, and the
literary branch is reached exactly when no academic indicator matched. -/
theorem academic_takes_precedence (p : Paper) :
    (academic_words.any (fun w => hasSub (mediumContent p) w) = true →
      categorize_by_medium p = academicLabel)
    ∧ (academic_words.any (fun w => hasSub (mediumContent p) w) = false →
        (categorize_by_medium p = literaryLabel ↔
          literary_words.any (fun w => hasSub (mediumContent p) w) = true)) := by
  have dal : academicLabel ≠ literaryLabel := by decide
  have dol : otherLabel ≠ literaryLabel := by decide
  unfold categorize_by_medium
  constructor
  · intro ha
    rw [if_pos ha]
  · intro ha
    rw [if_neg (by simp [ha])]
    split_ifs with hl
    · exact iff_of_true rfl hl
    · exact iff_of_false dol (by simpa using hl)

/-- C3 witness: a journal title carrying both the academic indicator
`review` and the literary indicators `poetry` and `magazine` classifies as
`Academic Journal`. -/
theorem academic_takes_precedence_witness :
    academic_words.any (fun w => hasSub (mediumContent bothWordsPaper) w) = true
    ∧ literary_words.any (fun w => hasSub (mediumContent bothWordsPaper) w) = true
    ∧ categorize_by_medium bothWordsPaper = academicLabel :=
  ⟨by decide, by decide, (academic_takes_precedence bothWordsPaper).1 (by decide)⟩

/-- C5: the spec holds that classification and metadata extraction never
raise, absent fields being replaced by empty values throughout — but
`extract_metadata_for_analysis` subscripts `id['id']` directly, so a record
whose identifier entry has type `doi` without an `id` key raises `KeyError`
(here: `Except.error`), against the spec's stated intent. -/
theorem extract_raises_on_missing_doi_id :
    extract_metadata_for_analysis doiNoId = Except.error "KeyError: id"
    ∧ doiOf [Identifier.mk (some "doi".toList) none] = Except.error "KeyError: id" := by
  constructor <;> rfl

/-- C6: classification is deterministic and depends only on the record's
text fields — two records agreeing on title, abstract, keywords, journal
title and publisher receive identical era and medium labels, and in
particular recomputing the labels of one record always yields the same
pair. -/
theorem classification_deterministic (p q : Paper)
    (ht : (bjOf p).title = (bjOf q).title)
    (ha : (bjOf p).abstract = (bjOf q).abstract)
    (hk : (bjOf p).keywords = (bjOf q).keywords)
    (hj : ((bjOf p).journal.getD emptyJournal).title
        = ((bjOf q).journal.getD emptyJournal).title)
    (hpub : ((bjOf p).journal.getD emptyJournal).publisher
        = ((bjOf q).journal.getD emptyJournal).publisher) :
    (categorize_by_era p, categorize_by_medium p)
      = (categorize_by_era q, categorize_by_medium q) := by
  have hec : eraContent p = eraContent q := by
    unfold eraContent
    dsimp only
    rw [ht, ha, hk]
  have hmc : mediumContent p = mediumContent q := by
    unfold mediumContent
    dsimp only
    rw [hj, hpub]
  unfold categorize_by_era earlyCount highCount lateCount categorize_by_medium
  rw [hec, hmc]

/-- C6 witness: two records differing in id, year, authors and links but
agreeing on all text fields receive the same label pair. -/
theorem classification_deterministic_witness :
    (categorize_by_era detPaperA, categorize_by_medium detPaperA)
      = (categorize_by_era detPaperB, categorize_by_medium detPaperB) :=
  classification_deterministic detPaperA detPaperB
    (by decide) (by decide) (by decide) (by decide) (by decide)

theorem doiOf_skip (ids : List Identifier)
    (h : ∀ j ∈ ids, j.type ≠ some "doi".toList) : doiOf ids = Except.ok none := by
  induction ids with
  | nil => rfl
  | cons j rest ih =>
    simp only [doiOf]
    rw [if_neg (h j (List.mem_cons_self j rest))]
    exact ih (fun x hx => h x (List.mem_cons_of_mem j hx))

theorem doiOf_append (pre rest : List Identifier)
    (h : ∀ j ∈ pre, j.type ≠ some "doi".toList) :
    doiOf (pre ++ rest) = doiOf rest := by
  induction pre with
  | nil => rfl
  | cons j pre ih =>
    simp only [List.cons_append, doiOf]
    rw [if_neg (h j (List.mem_cons_self j pre))]
    exact ih (fun x hx => h x (List.mem_cons_of_mem j hx))

/-- C10: the extracted `doi` is the `id` of the first identifier entry whose
`type` is exactly `doi` (entries of any other type are skipped regardless of
position), it is `None` when no such entry exists, and the `doi` field of a
successful extraction agrees with this first-match rule. -/
theorem doi_is_first_doi_entry (pre post : List Identifier) (i : Identifier)
    (hpre : ∀ j ∈ pre, j.type ≠ some "doi".toList)
    (hi : i.type = some "doi".toList) :
    (∀ v, i.id = some v → doiOf (pre ++ i :: post) = Except.ok (some v))
    ∧ (∀ ids : List Identifier, (∀ j ∈ ids, j.type ≠ some "doi".toList) →
        doiOf ids = Except.ok none)
    ∧ (∀ (p : Paper) (m : Metadata),
        extract_metadata_for_analysis p = Except.ok m →
        doiOf ((bjOf p).identifier.getD []) = Except.ok m.doi) := by
  refine ⟨?_, fun ids h => doiOf_skip ids h, ?_⟩
  · intro v hv
    rw [doiOf_append pre (i :: post) hpre]
    simp only [doiOf]
    rw [if_pos hi, hv]
  · intro p m hm
    unfold extract_metadata_for_analysis at hm
    dsimp only at hm
    cases hdoi : doiOf ((bjOf p).identifier.getD []) with
    | error e =>
      rw [hdoi] at hm
      exact absurd hm (by simp)
    | ok d =>
      rw [hdoi] at hm
      cases hlinks : linksOf ((bjOf p).link.getD []) with
      | error e =>
        rw [hlinks] at hm
        exact absurd hm (by simp)
      | ok ls =>
        rw [hlinks] at hm
        injection hm with hm
        subst hm
        rfl

theorem filter_self_numeric (ms : List Metadata) :
    numericYears (ms.filter (fun m => pyIsDigit m.year)) = numericYears ms := by
  unfold numericYears
  rw [List.filter_filter]
  simp

/-- C4 (amended): the year-range aggregation is computed over exactly the
records whose year string is purely numeric — prepending a record with a
non-numeric year never changes the range, filtering to the numeric records
never changes the range, and whenever at least one record has a numeric
year the range is produced without error; with no numeric year at all the
code raises (see the counterexample), which the original claim excluded. -/
theorem year_range_ignores_non_numeric (ms : List Metadata) :
    (∀ m, pyIsDigit m.year = false → yearRange (m :: ms) = yearRange ms)
    ∧ ((∃ m ∈ ms, pyIsDigit m.year = true) → ∃ lo hi, yearRange ms = some (lo, hi))
    ∧ yearRange ms = yearRange (ms.filter (fun m => pyIsDigit m.year)) := by
  refine ⟨?_, ?_, ?_⟩
  · intro m hm
    unfold yearRange numericYears
    rw [List.filter_cons_of_neg (by simp [hm])]
  · rintro ⟨m, hmem, hd⟩
    unfold yearRange
    cases hn : numericYears ms with
    | cons y ys => exact ⟨_, _, rfl⟩
    | nil =>
      exfalso
      have hin : digitsToNat m.year ∈ numericYears ms := by
        unfold numericYears
        exact List.mem_map_of_mem _ (List.mem_filter.mpr ⟨hmem, hd⟩)
      rw [hn] at hin
      cases hin
  · unfold yearRange
    rw [filter_self_numeric]

/-- C4 counterexample: a nonempty collection whose only year string is the
non-numeric `n.d.` makes the year-range computation raise — `min()` receives
an empty sequence (modelled by `none`) — refuting "for every record
collection ... without raising an error". -/
theorem year_range_raises_when_all_non_numeric : yearRange [ndRecord] = none := by
  decide

theorem year_range_witness :
    yearRange [ndRecord, y1923] = yearRange [y1923]
    ∧ (∃ lo hi, yearRange [y1923] = some (lo, hi)) :=
  ⟨(year_range_ignores_non_numeric [y1923]).1 ndRecord (by decide),
   (year_range_ignores_non_numeric [y1923]).2.1 ⟨y1923, by decide, by decide⟩⟩

theorem bucketOf_mem (f : Paper → Str) (ps : List Paper) (label : Str) (p : Paper) :
    p ∈ bucketOf f ps label ↔ p ∈ ps ∧ f p = label := by
  induction ps with
  | nil => simp [bucketOf]
  | cons q rest ih =>
    unfold bucketOf
    split_ifs with hq
    · simp only [List.mem_cons, ih]
      constructor
      · rintro (rfl | ⟨hp, hl⟩)
        · exact ⟨Or.inl rfl, hq⟩
        · exact ⟨Or.inr hp, hl⟩
      · rintro ⟨hq2 | hp, hl⟩
        · exact Or.inl hq2
        · exact Or.inr ⟨hp, hl⟩
    · rw [ih]
      simp only [List.mem_cons]
      constructor
      · rintro ⟨hp, hl⟩
        exact ⟨Or.inr hp, hl⟩
      · rintro ⟨hq2 | hp, hl⟩
        · exact absurd (hq2 ▸ hl) hq
        · exact ⟨hp, hl⟩

theorem sum_indicator_one (x : Str) (labels : List Str)
    (hnd : labels.Nodup) (hx : x ∈ labels) :
    (labels.map (fun l => if x = l then 1 else 0)).sum = 1 := by
  induction labels with
  | nil => cases hx
  | cons a rest ih =>
    rcases List.mem_cons.mp hx with rfl | hmem
    · have hnotin : x ∉ rest := (List.nodup_cons.mp hnd).1
      simp only [List.map_cons, List.sum_cons, if_pos rfl]
      have hz : (rest.map (fun l => if x = l then 1 else 0)).sum = 0 := by
        apply List.sum_eq_zero
        intro y hy
        obtain ⟨l, hl, rfl⟩ := List.mem_map.mp hy
        rw [if_neg]
        intro he
        exact hnotin (he ▸ hl)
      rw [hz]
      simp
    · have hne : x ≠ a := by
        rintro rfl
        exact (List.nodup_cons.mp hnd).1 hmem
      simp only [List.map_cons, List.sum_cons, if_neg hne]
      rw [ih (List.nodup_cons.mp hnd).2 hmem]

theorem sum_map_add_split (f g : Str → Nat) (labels : List Str) :
    (labels.map (fun l => f l + g l)).sum = (labels.map f).sum + (labels.map g).sum := by
  induction labels with
  | nil => rfl
  | cons a rest ih =>
    simp only [List.map_cons, List.sum_cons, ih]
    ring

theorem bucket_length_sum (f : Paper → Str) (labels : List Str) (ps : List Paper)
    (hnd : labels.Nodup) (hf : ∀ p ∈ ps, f p ∈ labels) :
    (labels.map (fun l => (bucketOf f ps l).length)).sum = ps.length := by
  induction ps with
  | nil => simp [bucketOf]
  | cons p rest ih =>
    have hstep : ∀ l, (bucketOf f (p :: rest) l).length
        = (if f p = l then 1 else 0) + (bucketOf f rest l).length := by
      intro l
      rw [show bucketOf f (p :: rest) l
          = if f p = l then p :: bucketOf f rest l else bucketOf f rest l from rfl]
      split_ifs with h
      · simp [Nat.add_comm]
      · simp
    calc (labels.map fun l => (bucketOf f (p :: rest) l).length).sum
        = (labels.map fun l => (if f p = l then 1 else 0) + (bucketOf f rest l).length).sum := by
          simp only [hstep]
      _ = (labels.map fun l => if f p = l then 1 else 0).sum
            + (labels.map fun l => (bucketOf f rest l).length).sum :=
          sum_map_add_split _ _ labels
      _ = 1 + rest.length := by
          rw [sum_indicator_one (f p) labels hnd (hf p (List.mem_cons_self p rest)),
            ih (fun q hq => hf q (List.mem_cons_of_mem p hq))]
      _ = (p :: rest).length := by
          simp [Nat.add_comm]

/-- C7: for every input collection the era buckets partition the records —
each record lands in the bucket of its own era label and in no other era
bucket, and the bucket sizes over the four era labels sum to the input
length, so the union of the buckets holds each input record exactly once;
the same holds for the medium buckets over the three medium labels. -/
theorem buckets_partition (ps : List Paper) :
    (∀ p ∈ ps,
      p ∈ bucketOf categorize_by_era ps (categorize_by_era p)
      ∧ (∀ l, l ≠ categorize_by_era p → p ∉ bucketOf categorize_by_era ps l)
      ∧ p ∈ bucketOf categorize_by_medium ps (categorize_by_medium p)
      ∧ (∀ l, l ≠ categorize_by_medium p → p ∉ bucketOf categorize_by_medium ps l))
    ∧ (eraLabels.map (fun l => (bucketOf categorize_by_era ps l).length)).sum
        = ps.length
    ∧ (mediumLabels.map (fun l => (bucketOf categorize_by_medium ps l).length)).sum
        = ps.length := by
  refine ⟨?_, ?_, ?_⟩
  · intro p hp
    refine ⟨(bucketOf_mem _ ps _ p).mpr ⟨hp, rfl⟩, ?_,
      (bucketOf_mem _ ps _ p).mpr ⟨hp, rfl⟩, ?_⟩
    · intro l hl hmem
      exact hl ((bucketOf_mem _ ps l p).mp hmem).2.symm
    · intro l hl hmem
      exact hl ((bucketOf_mem _ ps l p).mp hmem).2.symm
  · exact bucket_length_sum _ eraLabels ps (by decide) (fun p _ => era_label_mem p)
  · exact bucket_length_sum _ mediumLabels ps (by decide) (fun p _ => medium_label_mem p)

theorem buckets_partition_witness :
    emptyRecord ∈ bucketOf categorize_by_era [emptyRecord] (categorize_by_era emptyRecord)
    ∧ (eraLabels.map (fun l => (bucketOf categorize_by_era [emptyRecord] l).length)).sum = 1 :=
  ⟨((buckets_partition [emptyRecord]).1 emptyRecord (List.mem_cons_self _ _)).1,
   (buckets_partition [emptyRecord]).2.1⟩

theorem doi_is_first_doi_entry_witness :
    doiOf [Identifier.mk (some "issn".toList) (some "1234-5678".toList),
      Identifier.mk (some "doi".toList) (some "10.1/abc".toList),
      Identifier.mk (some "doi".toList) (some "10.1/zzz".toList)]
    = Except.ok (some "10.1/abc".toList) :=
  (doi_is_first_doi_entry [Identifier.mk (some "issn".toList) (some "1234-5678".toList)]
    [Identifier.mk (some "doi".toList) (some "10.1/zzz".toList)]
    (Identifier.mk (some "doi".toList) (some "10.1/abc".toList))
    (by decide) (by decide)).1 "10.1/abc".toList (by decide)
